import Mathlib

/-!
Shallow embedding of `src/models/TransUNet/model.py` (ComVEX, TransUNet).

The file under `src/` composes a convolutional encoder, a vision transformer,
an einops rearrange, a U-Net decoder, a 1x1 output convolution and an optional
interpolation.  The collaborator modules (`TransUNetEncoderConvBlock`,
`TransUNetViT` from `models/transunet/utils`, and `UNetBase`, `UNetDecoder`
from `models/utils`) are code of this repository that is not under `src/`;
their shape behaviour is modelled from the spec, as marked on each definition.
All claims are about tensor shapes, list lengths, construction errors and the
re-layout performed by the middle rearrange, so tensors are modelled by their
shapes, except for the middle layer where an element-level model is also given.
-/

namespace ComVEX

/-- Shape of a 4-dimensional tensor `(batch, channels, height, width)`. -/
structure Shape4 where
  b : Nat
  c : Nat
  h : Nat
  w : Nat
deriving DecidableEq, Repr

/-- Shape of a 3-dimensional token tensor `(batch, tokens, dim)`. -/
structure Shape3 where
  b : Nat
  n : Nat
  d : Nat
deriving DecidableEq, Repr

/-- Modelled from the spec: `TransUNetEncoderConvBlock` (in
`models/transunet/utils`, not under `src/`).  Each encoder stage "downsamples
spatial resolution and changes channel depth per configuration": it requires
the configured input channel count and even spatial dimensions (the spec
requires `image_size` divisible by `2^len(channel_in_between)` "for clean
reshaping"), halves both spatial dimensions and outputs `outC` channels.
The residual-block count does not affect shapes. -/
def convBlockShape (inC outC : Nat) (s : Shape4) : Except String Shape4 :=
  if s.c = inC ∧ s.h % 2 = 0 ∧ s.w % 2 = 0 then
    .ok ⟨s.b, outC, s.h / 2, s.w / 2⟩
  else
    .error "TransUNetEncoderConvBlock: input shape mismatch"

/-- Configuration the `TransUNetViT` collaborator is constructed with
(`models/transunet/utils`, not under `src/`): the spatial size and channel
count it expects, plus the transformer hyperparameters that determine the
output shape. -/
structure ViT where
  image_size : Nat
  image_channel : Nat
  patch_size : Nat
  dim : Nat
deriving DecidableEq, Repr

/-- Modelled from the spec: forward shape of `TransUNetViT` (not under
`src/`): "patch embedding + positional encoding + transformer layers over a
flattened grid of spatial tokens".  The module is built for a fixed square
spatial size, so it requires exactly that input size and channel count (the
positional encoding has a fixed token count) and the patch size to divide it;
it produces `(S/P)^2` tokens of the embedding dimension. -/
def ViT.shape (v : ViT) (s : Shape4) : Except String Shape3 :=
  if s.c = v.image_channel ∧ s.h = v.image_size ∧ s.w = v.image_size ∧
      v.patch_size ∣ v.image_size then
    .ok ⟨s.b, (v.image_size / v.patch_size) * (v.image_size / v.patch_size), v.dim⟩
  else
    .error "TransUNetViT: input shape mismatch"

/-- Shape behaviour of the einops layer `Rearrange "b (p q) d -> b d p q"`
with `p` bound (model.py line 67): it requires `p` to divide the token count
and infers `q` as the token count divided by `p`. -/
def rearrangeShape (p : Nat) (s : Shape3) : Except String Shape4 :=
  if 0 < p ∧ p ∣ s.n then
    .ok ⟨s.b, s.d, p, s.n / p⟩
  else
    .error "Rearrange: token count not divisible by p"

/-- Modelled from the spec: one stage of `UNetDecoder` (in `models/utils`, not
under `src/`): "upsamples progressively, fusing each stage with the
corresponding encoder skip connection".  The stage doubles the spatial size
and fuses with a skip map that must match the doubled spatial size, the
stage's configured channel count and the batch size; the stage outputs that
channel count. -/
def decoderStage (ch : Nat) (skip : Shape4) (s : Shape4) : Except String Shape4 :=
  if skip.b = s.b ∧ skip.c = ch ∧ skip.h = 2 * s.h ∧ skip.w = 2 * s.w then
    .ok ⟨s.b, ch, 2 * s.h, 2 * s.w⟩
  else
    .error "UNetDecoder: skip connection shape mismatch"

/-- Folds the decoder stages over the paired (stage channel, skip map) list. -/
def decoderLoop : List (Nat × Shape4) → Shape4 → Except String Shape4
  | [], s => .ok s
  | (ch, skip) :: rest, s => do
      let s' ← decoderStage ch skip s
      decoderLoop rest s'

/-- Modelled from the spec: forward shape of `UNetDecoder` (not under `src/`).
Its first convolution consumes `middle_channel` input channels; it runs one
stage per configured channel entry, consuming one skip map per stage ("must
have length equal to the number of encoder stages"). -/
def decoderShape (middleChannel : Nat) (channels : List Nat) (skips : List Shape4)
    (s : Shape4) : Except String Shape4 :=
  if s.c = middleChannel ∧ channels.length = skips.length then
    decoderLoop (channels.zip skips) s
  else
    .error "UNetDecoder: input shape mismatch"

/-- Shape behaviour of `torch.nn.Conv2d` with a square kernel, stride 1 and no
padding (the defaults used at model.py line 69): it requires the configured
input channel count and a spatial size at least the kernel size, and outputs
spatial size `H - k + 1`. -/
structure Conv2d where
  inC : Nat
  outC : Nat
  kernel_size : Nat
deriving DecidableEq, Repr

/-- Forward shape of `Conv2d`. -/
def Conv2d.shape (conv : Conv2d) (s : Shape4) : Except String Shape4 :=
  if s.c = conv.inC ∧ 0 < conv.kernel_size ∧ conv.kernel_size ≤ s.h ∧
      conv.kernel_size ≤ s.w then
    .ok ⟨s.b, conv.outC, s.h - conv.kernel_size + 1, s.w - conv.kernel_size + 1⟩
  else
    .error "Conv2d: input shape mismatch"

/-- Target size argument of `torch.nn.functional.interpolate` as used at
model.py lines 80-83: either a single integer (both spatial dims resized to
it) or an `(h, w)` pair. -/
inductive InterpSize where
  | single : Nat → InterpSize
  | pair : Nat → Nat → InterpSize
deriving DecidableEq, Repr

/-- Shape behaviour of `torch.nn.functional.interpolate`: resizes the spatial
dimensions to the requested size, keeping batch and channels. -/
def interpolateShape : InterpSize → Shape4 → Shape4
  | .single sz, s => ⟨s.b, s.c, sz, sz⟩
  | .pair h w, s => ⟨s.b, s.c, h, w⟩

/-- The `TransUNetEncoder` module (model.py lines 9-34): the per-stage
`(input channel, output channel, residual block count)` triples built at
lines 16-19, and the vision transformer built at lines 20-24. -/
structure TransUNetEncoder where
  layers : List (Nat × Nat × Nat)
  vit : ViT
deriving DecidableEq, Repr

/-- The list comprehension of model.py lines 16-19: walking the extended
channel list pairwise while indexing `num_res_blocks_in_between` positionally.
Returns `none` when the indexing runs past the end of the residual-block list
(Python raises `IndexError` there); entries beyond the needed length are never
read. -/
def buildLayers : List Nat → List Nat → Option (List (Nat × Nat × Nat))
  | a :: b :: rest, n :: ns => do
      let tail ← buildLayers (b :: rest) ns
      pure ((a, b, n) :: tail)
  | _ :: _ :: _, [] => none
  | [_], _ => some []
  | [], _ => some []

/-- `TransUNetEncoder.__init__` (model.py lines 10-24): asserts at line 13
that at least one intermediate channel is given, builds the conv-block stages
(lines 16-19, fallible by `IndexError`), and builds the vision transformer on
the last channel entry (lines 20-24).  `patch_size` and `dim` arrive through
`**kwargs`. -/
def TransUNetEncoder.make (input_channel : Nat) (channel_in_between : List Nat)
    (num_res_blocks_in_between : List Nat) (vit_input_size : Nat)
    (patch_size : Nat) (dim : Nat) : Except String TransUNetEncoder :=
  if channel_in_between.length < 1 then
    .error "[TransUNetEncoder] Please specify the number of channels for at least 1 layer."
  else
    match buildLayers (input_channel :: channel_in_between) num_res_blocks_in_between with
    | none => .error "IndexError: list index out of range"
    | some ls =>
        .ok ⟨ls, ⟨vit_input_size, channel_in_between.getLastD input_channel, patch_size, dim⟩⟩

/-- The stage loop of `TransUNetEncoder.forward` (model.py lines 27-30):
applies each conv block in turn, recording each stage's output. -/
def stagesShape : List (Nat × Nat × Nat) → Shape4 → Except String (Shape4 × List Shape4)
  | [], s => .ok (s, [])
  | (inC, outC, _) :: rest, s => do
      let s' ← convBlockShape inC outC s
      let (f, hs) ← stagesShape rest s'
      pure (f, s' :: hs)

/-- `TransUNetEncoder.forward` (model.py lines 26-34): runs the conv stages,
then the vision transformer, and returns the transformer output together with
the recorded per-stage feature maps. -/
def TransUNetEncoder.forwardShape (e : TransUNetEncoder) (s : Shape4) :
    Except String (Shape3 × List Shape4) := do
  let (x, hidden_xs) ← stagesShape e.layers s
  let t ← e.vit.shape x
  pure (t, hidden_xs)

/-- Constructor arguments of `TransUNet` (model.py lines 45-54).  `image_size`
is an `Option` because the Python parameter could be passed `None` (the
`UNetBase` attribute is guarded against `None` at line 82).  The dropout and
attention hyperparameters forwarded through `**kwargs` do not affect shapes
and are omitted. -/
structure Config where
  input_channel : Nat
  middle_channel : Nat
  output_channel : Nat
  channel_in_between : List Nat
  num_res_blocks_in_between : List Nat
  image_size : Option Nat
  to_remain_size : Bool
  patch_size : Nat
  dim : Nat
deriving DecidableEq, Repr

/-- The `TransUNet` module (model.py lines 37-69).  `channel_in_between`,
`to_remain_size` and `image_size` are the attributes stored by the `UNetBase`
super-constructor (modelled from the spec: `UNetBase` of `models/utils` is not
under `src/`; per the spec it is "shared U-Net configuration logic", i.e. it
stores these configuration fields).  `middle_p` is the `p` bound in the
`Rearrange` at line 67; `decoder_middle_channel` and `decoder_channels` are
the `UNetDecoder` arguments of line 68; `output_layer` is the `Conv2d` of
line 69. -/
structure TransUNet where
  channel_in_between : List Nat
  to_remain_size : Bool
  image_size : Option Nat
  encoder : TransUNetEncoder
  middle_p : Nat
  decoder_middle_channel : Nat
  decoder_channels : List Nat
  output_layer : Conv2d
deriving DecidableEq, Repr

/-- `TransUNet.__init__` (model.py lines 45-69).  Line 56 stores the
configuration via `UNetBase`; line 58 computes
`vit_input_size = self.image_size // 2**len(self.channel_in_between)` (a
`TypeError` in Python when `image_size` is `None`); line 59 computes
`vit_output_size = vit_input_size // 2`; lines 60-66 build the encoder;
line 67 the rearrange with `p = vit_output_size`; line 68 the decoder on the
reversed channel list; line 69 the output `Conv2d` with kernel size 1 (the
comment there notes kernel size 3 in the official code).  The `[0]` index at
line 69 is only reached with a nonempty channel list (the encoder assert ran
first), so `headD` is exact there. -/
def TransUNet.make (cfg : Config) : Except String TransUNet := do
  let imgSz ← match cfg.image_size with
    | some sz => Except.ok sz
    | none => Except.error "TypeError: unsupported operand type for //: NoneType"
  let vit_input_size := imgSz / 2 ^ cfg.channel_in_between.length
  let vit_output_size := vit_input_size / 2
  let enc ← TransUNetEncoder.make cfg.input_channel cfg.channel_in_between
      cfg.num_res_blocks_in_between vit_input_size cfg.patch_size cfg.dim
  pure
    { channel_in_between := cfg.channel_in_between
      to_remain_size := cfg.to_remain_size
      image_size := some imgSz
      encoder := enc
      middle_p := vit_output_size
      decoder_middle_channel := cfg.middle_channel
      decoder_channels := cfg.channel_in_between.reverse
      output_layer := ⟨cfg.channel_in_between.headD 0, cfg.output_channel, 1⟩ }

/-- `TransUNet.forward` (model.py lines 71-85): encoder, middle rearrange,
decoder on the reversed skip list, output convolution, and, when
`to_remain_size` is set, interpolation to `self.image_size` (falling back to
the input's own `(h, w)` only if the stored `image_size` were `None`,
line 82). -/
def TransUNet.forwardShape (m : TransUNet) (s : Shape4) : Except String Shape4 := do
  let (x, hidden_xs) ← m.encoder.forwardShape s
  let g ← rearrangeShape m.middle_p x
  let d ← decoderShape m.decoder_middle_channel m.decoder_channels hidden_xs.reverse g
  let o ← m.output_layer.shape d
  if m.to_remain_size then
    pure (interpolateShape
      (match m.image_size with
        | some sz => .single sz
        | none => .pair s.h s.w) o)
  else
    pure o

/-- The configuration of the `__main__` demonstration (model.py lines 88-103):
`token_dropout`, `ff_dropout`, `num_heads` and `num_layers` do not affect
shapes. -/
def demoCfg : Config :=
  { input_channel := 3
    middle_channel := 512
    output_channel := 10
    channel_in_between := [64, 128, 256]
    num_res_blocks_in_between := [3, 4, 9]
    image_size := some 224
    to_remain_size := true
    patch_size := 2
    dim := 512 }

/-- The model that `TransUNet.make demoCfg` produces. -/
def demoModel : TransUNet :=
  { channel_in_between := [64, 128, 256]
    to_remain_size := true
    image_size := some 224
    encoder := ⟨[(3, 64, 3), (64, 128, 4), (128, 256, 9)], ⟨28, 256, 2, 512⟩⟩
    middle_p := 14
    decoder_middle_channel := 512
    decoder_channels := [256, 128, 64]
    output_layer := ⟨64, 10, 1⟩ }

/-- Element-level semantics of the einops layer
`Rearrange "b (p q) d -> b d p q"` (model.py line 67): the token axis is
grouped row-major, so `output[bi][di][pi][qi] = input[bi][pi*q + qi][di]`. -/
def tokensToGrid {α : Type} {b p q d : Nat} (x : Fin b → Fin (p * q) → Fin d → α) :
    Fin b → Fin d → Fin p → Fin q → α :=
  fun bi di pi qi =>
    x bi ⟨pi.val * q + qi.val, by
      have h1 : pi.val * q + qi.val < (pi.val + 1) * q := by
        rw [add_mul, one_mul]
        exact Nat.add_lt_add_left qi.isLt _
      exact h1.trans_le (Nat.mul_le_mul_right q pi.isLt)⟩ di

/-- Element-level semantics of the inverse rearrangement
`"b d p q -> b (p q) d"`. -/
def gridToTokens {α : Type} {b p q d : Nat} (y : Fin b → Fin d → Fin p → Fin q → α) :
    Fin b → Fin (p * q) → Fin d → α :=
  fun bi ti di =>
    y bi di
      ⟨ti.val / q,
        Nat.div_lt_of_lt_mul (Nat.lt_of_lt_of_le ti.isLt (Nat.le_of_eq (Nat.mul_comm p q)))⟩
      ⟨ti.val % q, by
        rcases Nat.eq_zero_or_pos q with hq | hq
        · subst hq
          exact absurd ti.isLt (by simp)
        · exact Nat.mod_lt _ hq⟩

/-- Whether an `Except` computation succeeded. -/
def exceptOk {α : Type} : Except String α → Bool
  | .ok _ => true
  | .error _ => false

/-- A configuration whose residual-block list is longer than its channel
list: the two lengths differ. -/
def mismatchCfg : Config :=
  { demoCfg with channel_in_between := [64], num_res_blocks_in_between := [3, 4] }

/-- The model that `TransUNet.make mismatchCfg` produces: the extra
residual-block entry is silently ignored. -/
def mismatchModel : TransUNet :=
  { channel_in_between := [64]
    to_remain_size := true
    image_size := some 224
    encoder := ⟨[(3, 64, 3)], ⟨112, 64, 2, 512⟩⟩
    middle_p := 56
    decoder_middle_channel := 512
    decoder_channels := [64]
    output_layer := ⟨64, 10, 1⟩ }

/-- A configuration whose `image_size` (225) is not divisible by the required
downsampling factor `2^len(channel_in_between) = 2` (nor by the further
factor 2 of the transformer's patch embedding). -/
def indivisibleCfg : Config :=
  { demoCfg with
    channel_in_between := [64]
    num_res_blocks_in_between := [3]
    image_size := some 225 }

/-- The model that `TransUNet.make indivisibleCfg` produces: the vit input
size is the floor `225 // 2 = 112` and no error is raised. -/
def indivisibleModel : TransUNet :=
  { channel_in_between := [64]
    to_remain_size := true
    image_size := some 225
    encoder := ⟨[(3, 64, 3)], ⟨112, 64, 2, 512⟩⟩
    middle_p := 56
    decoder_middle_channel := 512
    decoder_channels := [64]
    output_layer := ⟨64, 10, 1⟩ }

example : TransUNet.make demoCfg = .ok demoModel := by rfl

example : demoModel.forwardShape ⟨1, 3, 224, 224⟩ = .ok ⟨1, 10, 224, 224⟩ := by rfl

example : TransUNet.make mismatchCfg = .ok mismatchModel := by rfl

example : TransUNet.make indivisibleCfg = .ok indivisibleModel := by rfl

/-! ### Inversion lemmas -/

/-- Inversion of a successful bind in the `Except` monad. -/
theorem exceptBind_ok {α β : Type} {e : Except String α} {f : α → Except String β} {r : β}
    (h : (e >>= f) = .ok r) : ∃ a, e = .ok a ∧ f a = .ok r := by
  cases e with
  | error msg => exact absurd h (by simp [Bind.bind, Except.bind])
  | ok a => exact ⟨a, rfl, by simpa [Bind.bind, Except.bind] using h⟩

/-- Inversion of a successful conv-block application. -/
theorem convBlockShape_ok {inC outC : Nat} {s t : Shape4}
    (h : convBlockShape inC outC s = .ok t) :
    s.c = inC ∧ s.h = 2 * t.h ∧ s.w = 2 * t.w ∧ t = ⟨s.b, outC, s.h / 2, s.w / 2⟩ := by
  unfold convBlockShape at h
  split at h
  · rename_i hc
    cases h
    refine ⟨hc.1, ?_, ?_, rfl⟩
    · show s.h = 2 * (s.h / 2)
      omega
    · show s.w = 2 * (s.w / 2)
      omega
  · cases h

/-- Inversion of a successful vision-transformer application. -/
theorem vitShape_ok {v : ViT} {s : Shape4} {t : Shape3} (h : v.shape s = .ok t) :
    s.c = v.image_channel ∧ s.h = v.image_size ∧ s.w = v.image_size ∧
    t = ⟨s.b, (v.image_size / v.patch_size) * (v.image_size / v.patch_size), v.dim⟩ := by
  unfold ViT.shape at h
  split at h
  · rename_i hc
    cases h
    exact ⟨hc.1, hc.2.1, hc.2.2.1, rfl⟩
  · cases h

/-- Inversion of a successful rearrange application. -/
theorem rearrangeShape_ok {p : Nat} {s : Shape3} {t : Shape4}
    (h : rearrangeShape p s = .ok t) :
    0 < p ∧ p ∣ s.n ∧ t = ⟨s.b, s.d, p, s.n / p⟩ := by
  unfold rearrangeShape at h
  split at h
  · rename_i hc
    cases h
    exact ⟨hc.1, hc.2, rfl⟩
  · cases h

/-- Inversion of a successful decoder stage. -/
theorem decoderStage_ok {ch : Nat} {skip s t : Shape4} (h : decoderStage ch skip s = .ok t) :
    t = ⟨s.b, ch, 2 * s.h, 2 * s.w⟩ := by
  unfold decoderStage at h
  split at h
  · cases h; rfl
  · cases h

/-- A successful decoder loop preserves the batch dimension. -/
theorem decoderLoop_ok_b {ps : List (Nat × Shape4)} {s d : Shape4}
    (h : decoderLoop ps s = .ok d) : d.b = s.b := by
  induction ps generalizing s with
  | nil =>
      unfold decoderLoop at h
      cases h; rfl
  | cons p rest ih =>
      obtain ⟨ch, skip⟩ := p
      unfold decoderLoop at h
      obtain ⟨s', hstage, hrest⟩ := exceptBind_ok h
      have := decoderStage_ok hstage
      subst this
      simpa using ih hrest

/-- A successful decoder application preserves the batch dimension and
requires the `middle_channel` input depth. -/
theorem decoderShape_ok {mc : Nat} {channels : List Nat} {skips : List Shape4} {s d : Shape4}
    (h : decoderShape mc channels skips s = .ok d) :
    s.c = mc ∧ d.b = s.b := by
  unfold decoderShape at h
  split at h
  · rename_i hc
    exact ⟨hc.1, decoderLoop_ok_b h⟩
  · cases h

/-- Inversion of a successful `Conv2d` application. -/
theorem convShape_ok {conv : Conv2d} {s t : Shape4} (h : conv.shape s = .ok t) :
    s.c = conv.inC ∧
    t = ⟨s.b, conv.outC, s.h - conv.kernel_size + 1, s.w - conv.kernel_size + 1⟩ := by
  unfold Conv2d.shape at h
  split at h
  · rename_i hc
    cases h
    exact ⟨hc.1, rfl⟩
  · cases h

/-- Inversion of a successful stage loop: the batch dimension is preserved,
the spatial dimensions are halved exactly once per stage, and the recorded
feature maps carry the stages' output channel counts in stage order. -/
theorem stagesShape_ok {layers : List (Nat × Nat × Nat)} {s f : Shape4} {hs : List Shape4}
    (h : stagesShape layers s = .ok (f, hs)) :
    f.b = s.b ∧ s.h = 2 ^ layers.length * f.h ∧ s.w = 2 ^ layers.length * f.w ∧
    hs.map Shape4.c = layers.map (fun l => l.2.1) := by
  induction layers generalizing s hs with
  | nil =>
      unfold stagesShape at h
      cases h
      simp
  | cons l rest ih =>
      obtain ⟨li, lo, ln⟩ := l
      unfold stagesShape at h
      obtain ⟨s', hconv, h2⟩ := exceptBind_ok h
      obtain ⟨fh, hrest, h3⟩ := exceptBind_ok h2
      obtain ⟨f', hs'⟩ := fh
      simp only [pure, Except.pure, Except.ok.injEq, Prod.mk.injEq] at h3
      obtain ⟨hf, hhs⟩ := h3
      subst hf
      subst hhs
      obtain ⟨hcin, hh, hw, hs'eq⟩ := convBlockShape_ok hconv
      obtain ⟨ib, ihh, ihw, imap⟩ := ih hrest
      refine ⟨?_, ?_, ?_, ?_⟩
      · rw [ib, hs'eq]
      · rw [hh, ihh, List.length_cons, pow_succ]; ring
      · rw [hw, ihw, List.length_cons, pow_succ]; ring
      · simp only [List.map_cons, imap, hs'eq]

/-- Inversion of a successful encoder forward pass. -/
theorem encoderForward_ok {e : TransUNetEncoder} {s : Shape4} {t : Shape3} {hs : List Shape4}
    (h : e.forwardShape s = .ok (t, hs)) :
    ∃ f, stagesShape e.layers s = .ok (f, hs) ∧ e.vit.shape f = .ok t := by
  unfold TransUNetEncoder.forwardShape at h
  obtain ⟨fh, hstages, h2⟩ := exceptBind_ok h
  obtain ⟨f, hs'⟩ := fh
  obtain ⟨t', hvit, h3⟩ := exceptBind_ok h2
  simp only [pure, Except.pure, Except.ok.injEq, Prod.mk.injEq] at h3
  obtain ⟨ht, hhs⟩ := h3
  subst ht
  subst hhs
  exact ⟨f, hstages, hvit⟩

/-- A successful `buildLayers` on an extended channel list produces one stage
per intermediate channel and records the stages' output channels in order. -/
theorem buildLayers_cons {a : Nat} {rest num : List Nat} {ls : List (Nat × Nat × Nat)}
    (h : buildLayers (a :: rest) num = some ls) :
    ls.length = rest.length ∧ ls.map (fun l => l.2.1) = rest := by
  induction rest generalizing a num ls with
  | nil =>
      unfold buildLayers at h
      cases h
      exact ⟨rfl, rfl⟩
  | cons b rest ih =>
      cases num with
      | nil => exact absurd h (by unfold buildLayers; simp)
      | cons n ns =>
          unfold buildLayers at h
          cases htail : buildLayers (b :: rest) ns with
          | none => rw [htail] at h; cases h
          | some tail =>
              rw [htail] at h
              have h2 : some ((a, b, n) :: tail) = some ls := h
              cases h2
              obtain ⟨hlen, hmap⟩ := ih htail
              simp [hlen, hmap]

/-- `buildLayers` succeeds exactly when the residual-block list is long enough
for the positional indexing of model.py line 17. -/
theorem buildLayers_isSome : ∀ (ext num : List Nat),
    (buildLayers ext num).isSome = true ↔ ext.length - 1 ≤ num.length
  | [], num => by unfold buildLayers; simp
  | [a], num => by unfold buildLayers; simp
  | a :: b :: rest, [] => by unfold buildLayers; simp
  | a :: b :: rest, n :: ns => by
      have ih := buildLayers_isSome (b :: rest) ns
      unfold buildLayers
      cases hbl : buildLayers (b :: rest) ns with
      | none =>
          rw [hbl] at ih
          simp only [Option.isSome_none, Bool.false_eq_true, false_iff, not_le] at ih
          show (none : Option (List (Nat × Nat × Nat))).isSome = true ↔
            (a :: b :: rest).length - 1 ≤ (n :: ns).length
          simp only [Option.isSome_none, Bool.false_eq_true, false_iff, not_le]
          simp only [List.length_cons] at ih ⊢
          omega
      | some tail =>
          rw [hbl] at ih
          simp only [Option.isSome_some, true_iff] at ih
          show (some ((a, b, n) :: tail)).isSome = true ↔
            (a :: b :: rest).length - 1 ≤ (n :: ns).length
          simp only [Option.isSome_some, true_iff]
          simp only [List.length_cons] at ih ⊢
          omega

/-- Inversion of a successful `TransUNetEncoder.make`. -/
theorem encoderMake_ok {ic vin ps dm : Nat} {cib nrb : List Nat} {e : TransUNetEncoder}
    (h : TransUNetEncoder.make ic cib nrb vin ps dm = .ok e) :
    ∃ ls, cib ≠ [] ∧ buildLayers (ic :: cib) nrb = some ls ∧
      e = ⟨ls, ⟨vin, cib.getLastD ic, ps, dm⟩⟩ := by
  unfold TransUNetEncoder.make at h
  split at h
  · cases h
  · rename_i hlen
    cases hbl : buildLayers (ic :: cib) nrb with
    | none => rw [hbl] at h; cases h
    | some ls =>
        rw [hbl] at h
        cases h
        refine ⟨ls, ?_, rfl, rfl⟩
        intro he
        rw [he] at hlen
        simp at hlen

/-- Inversion of a successful `TransUNet.make`: the configuration passed all
the fallible constructor steps and every stored attribute is determined by the
configuration exactly as lines 56-69 of model.py compute it. -/
theorem make_ok_elim {cfg : Config} {m : TransUNet} (hm : TransUNet.make cfg = .ok m) :
    ∃ sz ls, cfg.image_size = some sz ∧
      cfg.channel_in_between ≠ [] ∧
      buildLayers (cfg.input_channel :: cfg.channel_in_between) cfg.num_res_blocks_in_between
        = some ls ∧
      m = { channel_in_between := cfg.channel_in_between
            to_remain_size := cfg.to_remain_size
            image_size := some sz
            encoder := ⟨ls, ⟨sz / 2 ^ cfg.channel_in_between.length,
              cfg.channel_in_between.getLastD cfg.input_channel, cfg.patch_size, cfg.dim⟩⟩
            middle_p := sz / 2 ^ cfg.channel_in_between.length / 2
            decoder_middle_channel := cfg.middle_channel
            decoder_channels := cfg.channel_in_between.reverse
            output_layer := ⟨cfg.channel_in_between.headD 0, cfg.output_channel, 1⟩ } := by
  unfold TransUNet.make at hm
  cases himg : cfg.image_size with
  | none =>
      rw [himg] at hm
      exact absurd hm (by simp [Bind.bind, Except.bind])
  | some sz =>
      rw [himg] at hm
      simp only [Bind.bind, Except.bind] at hm
      cases henc : TransUNetEncoder.make cfg.input_channel cfg.channel_in_between
          cfg.num_res_blocks_in_between (sz / 2 ^ cfg.channel_in_between.length)
          cfg.patch_size cfg.dim with
      | error msg => rw [henc] at hm; cases hm
      | ok enc =>
          rw [henc] at hm
          cases hm
          obtain ⟨ls, hne, hbl, henceq⟩ := encoderMake_ok henc
          exact ⟨sz, ls, rfl, hne, hbl, by rw [henceq]⟩

/-- Master inversion of a successful forward pass: the batch dimension is
preserved, the output channel count is the output convolution's, the input
spatial dimensions are forced to be the transformer's expected size scaled
back up by the encoder's downsampling, and with `to_remain_size` set the
output spatial dimensions equal the stored `image_size`. -/
theorem forwardShape_ok {m : TransUNet} {s out : Shape4}
    (h : m.forwardShape s = .ok out) :
    out.b = s.b ∧ out.c = m.output_layer.outC ∧
    s.h = 2 ^ m.encoder.layers.length * m.encoder.vit.image_size ∧
    s.w = 2 ^ m.encoder.layers.length * m.encoder.vit.image_size ∧
    (m.to_remain_size = true → ∀ sz, m.image_size = some sz → out.h = sz ∧ out.w = sz) := by
  unfold TransUNet.forwardShape at h
  obtain ⟨th, henc, h2⟩ := exceptBind_ok h
  obtain ⟨t, hs⟩ := th
  obtain ⟨g, hre, h3⟩ := exceptBind_ok h2
  obtain ⟨d, hdec, h4⟩ := exceptBind_ok h3
  obtain ⟨o, hconv, h5⟩ := exceptBind_ok h4
  obtain ⟨f, hstages, hvit⟩ := encoderForward_ok henc
  obtain ⟨fb, fh, fw, fmap⟩ := stagesShape_ok hstages
  obtain ⟨fc, fh2, fw2, teq⟩ := vitShape_ok hvit
  obtain ⟨hp, hdvd, geq⟩ := rearrangeShape_ok hre
  obtain ⟨dc, db⟩ := decoderShape_ok hdec
  obtain ⟨oc, oeq⟩ := convShape_ok hconv
  have hob : o.b = s.b := by
    rw [oeq]
    show d.b = s.b
    rw [db, geq]
    show t.b = s.b
    rw [teq]
    show f.b = s.b
    exact fb
  have hoc : o.c = m.output_layer.outC := by rw [oeq]
  refine ⟨?_, ?_, by rw [fh, fh2], by rw [fw, fw2], ?_⟩
  · cases hrs : m.to_remain_size with
    | false => rw [hrs] at h5; simp only [Bool.false_eq_true, if_false] at h5; cases h5; exact hob
    | true =>
        rw [hrs] at h5
        simp only [if_true] at h5
        cases h5
        cases m.image_size <;> simpa [interpolateShape] using hob
  · cases hrs : m.to_remain_size with
    | false => rw [hrs] at h5; simp only [Bool.false_eq_true, if_false] at h5; cases h5; exact hoc
    | true =>
        rw [hrs] at h5
        simp only [if_true] at h5
        cases h5
        cases m.image_size <;> simpa [interpolateShape] using hoc
  · intro hrs sz hsz
    rw [hrs] at h5
    simp only [if_true] at h5
    rw [hsz] at h5
    cases h5
    exact ⟨rfl, rfl⟩

/-- The rearrangement discards and duplicates nothing: flattening the grid
back recovers the original token tensor. -/
theorem gridToTokens_tokensToGrid {α : Type} {b p q d : Nat}
    (x : Fin b → Fin (p * q) → Fin d → α) : gridToTokens (tokensToGrid x) = x := by
  funext bi ti di
  unfold gridToTokens tokensToGrid
  congr 1
  apply Fin.ext
  show ti.val / q * q + ti.val % q = ti.val
  rw [Nat.mul_comm]
  exact Nat.div_add_mod ti.val q

/-- The inverse composition: re-laying out the flattened grid recovers the
original grid tensor. -/
theorem tokensToGrid_gridToTokens {α : Type} {b p q d : Nat}
    (y : Fin b → Fin d → Fin p → Fin q → α) : tokensToGrid (gridToTokens y) = y := by
  funext bi di pi qi
  unfold tokensToGrid gridToTokens
  have hq : 0 < q := Nat.lt_of_le_of_lt (Nat.zero_le _) qi.isLt
  congr 1
  · apply Fin.ext
    show (pi.val * q + qi.val) / q = pi.val
    rw [Nat.mul_comm pi.val q, Nat.mul_add_div hq, Nat.div_eq_of_lt qi.isLt, Nat.add_zero]
  · apply Fin.ext
    show (pi.val * q + qi.val) % q = qi.val
    rw [Nat.mul_add_mod', Nat.mod_eq_of_lt qi.isLt]

/-- Full characterization of constructor success: `TransUNet.make` succeeds
exactly when an `image_size` is given, the channel list is nonempty (the
line 13 assert) and the residual-block list is at least as long as the
channel list (the line 17 indexing).  No other validation exists. -/
theorem make_succeeds_iff (cfg : Config) :
    exceptOk (TransUNet.make cfg) = true ↔
      (cfg.image_size.isSome = true ∧ cfg.channel_in_between ≠ [] ∧
       cfg.channel_in_between.length ≤ cfg.num_res_blocks_in_between.length) := by
  constructor
  · intro h
    cases hmk : TransUNet.make cfg with
    | error msg => rw [hmk] at h; exact absurd h (by simp [exceptOk])
    | ok m =>
        obtain ⟨sz, ls, himg, hne, hbl, _⟩ := make_ok_elim hmk
        refine ⟨by rw [himg]; rfl, hne, ?_⟩
        have := (buildLayers_isSome (cfg.input_channel :: cfg.channel_in_between)
          cfg.num_res_blocks_in_between).mp (by rw [hbl]; rfl)
        simpa using this
  · rintro ⟨himg, hne, hlen⟩
    obtain ⟨sz, hsz⟩ := Option.isSome_iff_exists.mp himg
    have hbl : (buildLayers (cfg.input_channel :: cfg.channel_in_between)
        cfg.num_res_blocks_in_between).isSome = true := by
      apply (buildLayers_isSome _ _).mpr
      simpa using hlen
    obtain ⟨ls, hls⟩ := Option.isSome_iff_exists.mp hbl
    unfold TransUNet.make
    rw [hsz]
    simp only [Bind.bind, Except.bind]
    unfold TransUNetEncoder.make
    rw [if_neg (by simp only [Nat.lt_one_iff, List.length_eq_zero]; exact hne), hls]
    rfl

/-! ### Claim theorems -/

/-- C1: for every model constructed with `to_remain_size = true` from a valid
configuration (the spec's constructor interface requires `image_size`
divisible by `2^len(channel_in_between)`), every input tensor
`(B, input_channel, H, W)` that the forward pass accepts yields an output of
shape `(B, output_channel, H, W)`: the output spatial dimensions equal the
input spatial dimensions. -/
theorem C1_remain_size_restores_spatial {cfg : Config} {m : TransUNet} {isz : Nat}
    (himg : cfg.image_size = some isz)
    (hdvd : 2 ^ cfg.channel_in_between.length ∣ isz)
    (hremain : cfg.to_remain_size = true)
    (hm : TransUNet.make cfg = .ok m)
    {b c h w : Nat} {out : Shape4}
    (hf : m.forwardShape ⟨b, c, h, w⟩ = .ok out) :
    out = ⟨b, cfg.output_channel, h, w⟩ := by
  obtain ⟨sz, ls, himg2, hne, hbl, hmeq⟩ := make_ok_elim hm
  rw [himg] at himg2
  injection himg2 with hsz
  subst hsz
  obtain ⟨hlen, _⟩ := buildLayers_cons hbl
  obtain ⟨hb, hc, hh, hw, hremsp⟩ := forwardShape_ok hf
  rw [hmeq] at hh hw hc hremsp
  dsimp only at hh hw hc hremsp
  obtain ⟨hoh, how⟩ := hremsp hremain isz rfl
  rw [hlen, Nat.mul_div_cancel' hdvd] at hh hw
  rcases out with ⟨ob, oc, oh, ow⟩
  dsimp only at hb hc hoh how
  rw [hb, hc, hoh, how, hh, hw]

/-- Witness for C1 at the demonstration configuration and input. -/
theorem C1_witness :
    TransUNet.make demoCfg = .ok demoModel ∧
    demoModel.forwardShape ⟨1, 3, 224, 224⟩ = .ok ⟨1, 10, 224, 224⟩ ∧
    (⟨1, 10, 224, 224⟩ : Shape4) = ⟨1, demoCfg.output_channel, 224, 224⟩ :=
  ⟨rfl, rfl,
    @C1_remain_size_restores_spatial demoCfg demoModel 224 rfl (by decide) rfl rfl
      1 3 224 224 ⟨1, 10, 224, 224⟩ rfl⟩

/-- C2 counterexample: a configuration whose residual-block list is longer
than (hence of different length from) its channel list constructs
successfully, so construction does not fail whenever the two lengths differ,
and no explicit length validation exists. -/
theorem C2_counterexample :
    mismatchCfg.num_res_blocks_in_between.length ≠ mismatchCfg.channel_in_between.length ∧
    TransUNet.make mismatchCfg = .ok mismatchModel :=
  ⟨by decide, rfl⟩

/-- C2 amended: there is no explicit length validation; the only failure mode
tied to `num_res_blocks_in_between` is the positional indexing of model.py
line 17, so construction succeeds iff an `image_size` is given, the channel
list is nonempty, and the residual-block list is at least as long as the
channel list — in particular a strictly longer residual-block list (unequal
lengths) still constructs, its surplus entries silently ignored. -/
theorem C2_amended_indexing_only (cfg : Config) :
    exceptOk (TransUNet.make cfg) = true ↔
      (cfg.image_size.isSome = true ∧ cfg.channel_in_between ≠ [] ∧
       cfg.channel_in_between.length ≤ cfg.num_res_blocks_in_between.length) :=
  make_succeeds_iff cfg

/-- C3 counterexample: `image_size = 225` is divisible neither by
`2^len(channel_in_between) = 2` nor by the further transformer factor, yet
construction succeeds without any error. -/
theorem C3_counterexample :
    ¬ 2 ^ indivisibleCfg.channel_in_between.length ∣ 225 ∧
    ¬ 2 ^ (indivisibleCfg.channel_in_between.length + 1) ∣ 225 ∧
    TransUNet.make indivisibleCfg = .ok indivisibleModel :=
  ⟨by decide, by decide, rfl⟩

/-- C3 amended: construction performs no divisibility validation at all: for
any given `image_size`, as long as the channel list is nonempty and the
residual-block list long enough, construction succeeds, the transformer
spatial size being computed by silently truncating floor division. -/
theorem C3_amended_no_divisibility_check (cfg : Config) (sz : Nat)
    (himg : cfg.image_size = some sz)
    (hne : cfg.channel_in_between ≠ [])
    (hlen : cfg.channel_in_between.length ≤ cfg.num_res_blocks_in_between.length) :
    ∃ m, TransUNet.make cfg = .ok m ∧
      m.encoder.vit.image_size = sz / 2 ^ cfg.channel_in_between.length := by
  have hOk : exceptOk (TransUNet.make cfg) = true :=
    (make_succeeds_iff cfg).mpr ⟨by rw [himg]; rfl, hne, hlen⟩
  cases hmk : TransUNet.make cfg with
  | error msg => rw [hmk] at hOk; exact absurd hOk (by simp [exceptOk])
  | ok m =>
      obtain ⟨sz2, ls, himg2, _, _, hmeq⟩ := make_ok_elim hmk
      rw [himg] at himg2
      injection himg2 with hsz
      subst hsz
      exact ⟨m, rfl, by rw [hmeq]⟩

/-- Witness for the amended C3 at the concrete non-divisible configuration. -/
theorem C3_amended_witness :
    ∃ m, TransUNet.make indivisibleCfg = .ok m ∧
      m.encoder.vit.image_size = 225 / 2 ^ indivisibleCfg.channel_in_between.length :=
  C3_amended_no_divisibility_check indivisibleCfg 225 rfl (by decide) (by decide)

/-- C4: the concrete `__main__` scenario (model.py lines 88-108):
input_channel=3, middle_channel=512, output_channel=10,
channel_in_between=[64,128,256], num_res_blocks_in_between=[3,4,9],
image_size=224, patch_size=2, dim=512, to_remain_size=True constructs, and
forward maps shape (1,3,224,224) to shape (1,10,224,224). -/
theorem C4_concrete_scenario :
    TransUNet.make demoCfg = .ok demoModel ∧
    demoModel.forwardShape ⟨1, 3, 224, 224⟩ = .ok ⟨1, 10, 224, 224⟩ :=
  ⟨rfl, rfl⟩

/-- C5: for every configuration that constructs successfully, the final
projection is a kernel-size-1 convolution from `channel_in_between[0]` to
`output_channel` channels, and every successful forward output has channel
dimension `output_channel`. -/
theorem C5_output_channel_projection {cfg : Config} {m : TransUNet}
    (hm : TransUNet.make cfg = .ok m) :
    cfg.channel_in_between ≠ [] ∧
    m.output_layer = ⟨cfg.channel_in_between.headD 0, cfg.output_channel, 1⟩ ∧
    ∀ s out : Shape4, m.forwardShape s = .ok out → out.c = cfg.output_channel := by
  obtain ⟨sz, ls, himg, hne, hbl, hmeq⟩ := make_ok_elim hm
  refine ⟨hne, by rw [hmeq], ?_⟩
  intro s out hf
  have hc := (forwardShape_ok hf).2.1
  rw [hmeq] at hc
  exact hc

/-- Witness for C5 at the demonstration configuration. -/
theorem C5_witness :
    demoCfg.channel_in_between ≠ [] ∧
    demoModel.output_layer = ⟨demoCfg.channel_in_between.headD 0, demoCfg.output_channel, 1⟩ ∧
    ∀ s out : Shape4, demoModel.forwardShape s = .ok out → out.c = demoCfg.output_channel :=
  @C5_output_channel_projection demoCfg demoModel rfl

/-- C6: for every successfully constructed model with
`N = len(channel_in_between)` stages, a successful encoder forward pass
returns exactly `N` skip feature maps whose channel counts are the configured
stage channels in original stage order, and the top-level forward hands
exactly the reversed skip list to the decoder. -/
theorem C6_skip_connections {cfg : Config} {m : TransUNet} {s : Shape4} {t : Shape3}
    {hs : List Shape4}
    (hm : TransUNet.make cfg = .ok m)
    (he : m.encoder.forwardShape s = .ok (t, hs)) :
    hs.length = cfg.channel_in_between.length ∧
    hs.map Shape4.c = cfg.channel_in_between ∧
    m.forwardShape s = (do
      let g ← rearrangeShape m.middle_p t
      let d ← decoderShape m.decoder_middle_channel m.decoder_channels hs.reverse g
      let o ← m.output_layer.shape d
      if m.to_remain_size then
        pure (interpolateShape
          (match m.image_size with
            | some sz => .single sz
            | none => .pair s.h s.w) o)
      else
        pure o) := by
  obtain ⟨sz, ls, himg, hne, hbl, hmeq⟩ := make_ok_elim hm
  obtain ⟨f, hstages, hvit⟩ := encoderForward_ok he
  obtain ⟨_, _, _, hmap⟩ := stagesShape_ok hstages
  have hlayers : m.encoder.layers = ls := by rw [hmeq]
  obtain ⟨hlen, hmap2⟩ := buildLayers_cons hbl
  rw [hlayers] at hmap
  have hchan : hs.map Shape4.c = cfg.channel_in_between := by rw [hmap, hmap2]
  refine ⟨?_, hchan, ?_⟩
  · calc hs.length = (hs.map Shape4.c).length := (List.length_map hs Shape4.c).symm
      _ = cfg.channel_in_between.length := by rw [hchan]
  · unfold TransUNet.forwardShape
    rw [he]
    rfl

/-- Witness for C6 at the demonstration configuration and input. -/
theorem C6_witness :
    ([⟨1, 64, 112, 112⟩, ⟨1, 128, 56, 56⟩, ⟨1, 256, 28, 28⟩] : List Shape4).length =
      demoCfg.channel_in_between.length ∧
    ([⟨1, 64, 112, 112⟩, ⟨1, 128, 56, 56⟩, ⟨1, 256, 28, 28⟩] : List Shape4).map Shape4.c =
      demoCfg.channel_in_between :=
  have h := @C6_skip_connections demoCfg demoModel ⟨1, 3, 224, 224⟩ ⟨1, 196, 512⟩
    [⟨1, 64, 112, 112⟩, ⟨1, 128, 56, 56⟩, ⟨1, 256, 28, 28⟩] rfl rfl
  ⟨h.1, h.2.1⟩

/-- C7: for every successfully constructed model, the spatial size the vision
transformer is built for equals `image_size / 2^len(channel_in_between)`, and
the grid height bound in the middle rearrange equals half of that value. -/
theorem C7_derived_sizes {cfg : Config} {m : TransUNet} {isz : Nat}
    (himg : cfg.image_size = some isz)
    (hm : TransUNet.make cfg = .ok m) :
    m.encoder.vit.image_size = isz / 2 ^ cfg.channel_in_between.length ∧
    m.middle_p = m.encoder.vit.image_size / 2 := by
  obtain ⟨sz, ls, himg2, hne, hbl, hmeq⟩ := make_ok_elim hm
  rw [himg] at himg2
  injection himg2 with hsz
  subst hsz
  rw [hmeq]
  exact ⟨rfl, rfl⟩

/-- Witness for C7 at the demonstration configuration. -/
theorem C7_witness :
    demoModel.encoder.vit.image_size = 224 / 2 ^ demoCfg.channel_in_between.length ∧
    demoModel.middle_p = demoModel.encoder.vit.image_size / 2 :=
  @C7_derived_sizes demoCfg demoModel 224 rfl rfl

/-- C8: the middle rearrange maps every `(B, P*Q, D)` tensor to a
`(B, D, P, Q)` tensor, `Q` being the token count divided by `P`, and the
element-level re-layout discards and duplicates nothing: composing with the
inverse rearrangement returns the original tensor, in both directions. -/
theorem C8_rearrange_bijective (α : Type) (b p q d : Nat) (hp : 0 < p) :
    rearrangeShape p ⟨b, p * q, d⟩ = .ok ⟨b, d, p, q⟩ ∧
    (∀ x : Fin b → Fin (p * q) → Fin d → α, gridToTokens (tokensToGrid x) = x) ∧
    (∀ y : Fin b → Fin d → Fin p → Fin q → α, tokensToGrid (gridToTokens y) = y) := by
  refine ⟨?_, gridToTokens_tokensToGrid, tokensToGrid_gridToTokens⟩
  unfold rearrangeShape
  rw [if_pos ⟨hp, Dvd.intro q rfl⟩]
  dsimp only
  rw [Nat.mul_div_cancel_left q hp]

/-- Witness for C8 at a concrete grid size. -/
theorem C8_witness :
    0 < 2 ∧ rearrangeShape 2 ⟨1, 2 * 3, 4⟩ = .ok ⟨1, 4, 2, 3⟩ :=
  ⟨by decide, (C8_rearrange_bijective Bool 1 2 3 4 (by decide)).1⟩

/-- C9: constructing with `channel_in_between = []` fails with a
configuration error during construction (the line 13 assert, after the
line 58 `image_size` arithmetic), so no model exists to run a forward pass
on. -/
theorem C9_empty_channels_fail (cfg : Config)
    (hempty : cfg.channel_in_between = []) :
    exceptOk (TransUNet.make cfg) = false := by
  cases hmk : TransUNet.make cfg with
  | error msg => rfl
  | ok m =>
      obtain ⟨_, _, _, hne, _, _⟩ := make_ok_elim hmk
      exact absurd hempty hne

/-- Witness for C9 at a concrete empty-channel configuration. -/
theorem C9_witness :
    exceptOk (TransUNet.make { demoCfg with channel_in_between := [] }) = false :=
  C9_empty_channels_fail { demoCfg with channel_in_between := [] } rfl

/-- C10: every model produced by the public constructor stores a non-`None`
`image_size` equal to the configured one, so with `to_remain_size` set every
successful forward output is interpolated to the configured `image_size`
regardless of the input's own `(h, w)`: the fallback interpolation target of
model.py line 82 is unreachable. -/
theorem C10_image_size_never_none {cfg : Config} {m : TransUNet}
    (hm : TransUNet.make cfg = .ok m) :
    m.image_size.isSome = true ∧ m.image_size = cfg.image_size ∧
    (m.to_remain_size = true →
      ∀ b c h w : Nat, ∀ out : Shape4, m.forwardShape ⟨b, c, h, w⟩ = .ok out →
        ∀ sz : Nat, m.image_size = some sz → out.h = sz ∧ out.w = sz) := by
  obtain ⟨sz, ls, himg, hne, hbl, hmeq⟩ := make_ok_elim hm
  refine ⟨by rw [hmeq]; rfl, by rw [hmeq, himg], ?_⟩
  intro hrs b c h w out hf sz2 hsz2
  exact (forwardShape_ok hf).2.2.2.2 hrs sz2 hsz2

/-- Witness for C10 at the demonstration configuration. -/
theorem C10_witness :
    demoModel.image_size.isSome = true ∧ demoModel.image_size = demoCfg.image_size ∧
    (demoModel.to_remain_size = true →
      ∀ b c h w : Nat, ∀ out : Shape4, demoModel.forwardShape ⟨b, c, h, w⟩ = .ok out →
        ∀ sz : Nat, demoModel.image_size = some sz → out.h = sz ∧ out.w = sz) :=
  @C10_image_size_never_none demoCfg demoModel rfl

end ComVEX
